import Mathlib

/-!
Shallow embedding of the Big Plump Bird audio-enhancement pipeline
(`src/tools/enhance/analyze_audio.py` and `src/tools/enhance/process_audio.py`).

Audio samples and derived quantities that the sources manipulate as IEEE
floats are modelled as exact rationals (`ℚ`) where only structural facts
(lengths, branching) are claimed, and as reals (`ℝ`) where genuine analytic
functions (square roots, logarithms, Fourier magnitudes) occur.
Sample-index spans are natural numbers; millisecond timestamps are integers
(Python `int`).  External collaborators (the deep-filter executable, the
NARA-WPE transform, the ruptures change-point solver) are modelled as
oracle parameters: arbitrary functions/lists standing for whatever the
external tool returns.
-/

namespace BigPlumpBird

/-- A half-open sample-indexed span `{start, end}` as produced by the VAD
and consumed by `_silence_spans` / `_estimate_snr`. -/
structure Span where
  start : ℕ
  stop : ℕ
deriving DecidableEq, Repr, Inhabited

/-- `_silence_spans(speech, total_samples, min_gap)` from
`analyze_audio.py` lines 56-65: scan the speech spans in order; the gap
before each speech span (and the trailing gap) becomes a silence span when
its length is at least `min_gap`.  The Python comparison
`s["start"] - prev >= min_gap` is on signed integers, so it is taken in `ℤ`
here. -/
def _silence_spans (speech : List Span) (total_samples : ℕ) (min_gap : ℕ) : List Span :=
  go speech 0
where
  go : List Span → ℕ → List Span
    | [], prev =>
        if (min_gap : ℤ) ≤ (total_samples : ℤ) - (prev : ℤ) then
          [⟨prev, total_samples⟩]
        else []
    | s :: rest, prev =>
        if (min_gap : ℤ) ≤ (s.start : ℤ) - (prev : ℤ) then
          ⟨prev, s.start⟩ :: go rest s.stop
        else go rest s.stop

end BigPlumpBird

namespace BigPlumpBird.ProcessAudio

/-- Fade-out coefficients `np.linspace(1.0, 0.0, n, endpoint=False)` from
`_join_segments`: the values `1 - k/n` for `k = 0, …, n-1`. -/
def fadeOutCoeffs (n : ℕ) : List ℚ :=
  (List.range n).map (fun k : ℕ => 1 - (k : ℚ) / (n : ℚ))

/-- Fade-in coefficients `np.linspace(0.0, 1.0, n, endpoint=False)` from
`_join_segments`: the values `k/n` for `k = 0, …, n-1`. -/
def fadeInCoeffs (n : ℕ) : List ℚ :=
  (List.range n).map (fun k : ℕ => (k : ℚ) / (n : ℚ))

/-- `out[-n:] *= fade_out`: multiply the last `n` samples of `out`
pointwise by the fade-out ramp. -/
def applyFadeTail (out : List ℚ) (n : ℕ) : List ℚ :=
  out.take (out.length - n) ++
    List.zipWith (· * ·) (out.drop (out.length - n)) (fadeOutCoeffs n)

/-- `seg[:n] *= fade_in`: multiply the first `n` samples of `seg`
pointwise by the fade-in ramp. -/
def applyFadeHead (seg : List ℚ) (n : ℕ) : List ℚ :=
  List.zipWith (· * ·) (seg.take n) (fadeInCoeffs n) ++ seg.drop n

/-- One iteration of the fold in `_join_segments` (process_audio.py lines
122-133): shrink the fade to `n = min(fade_samples, len(out), len(seg))`,
attenuate the tail of the accumulated output and the head of the next
segment when `n > 0`, then concatenate. -/
def joinStep (fade_samples : ℕ) (out seg : List ℚ) : List ℚ :=
  let n := min fade_samples (min out.length seg.length)
  if 0 < n then applyFadeTail out n ++ applyFadeHead seg n
  else out ++ seg

/-- `_join_segments(segments, fade_samples)` from process_audio.py lines
115-135: empty input gives an empty output, a single segment is returned
unchanged, and otherwise the segments are folded left to right with
`joinStep`. -/
def _join_segments (segments : List (List ℚ)) (fade_samples : ℕ) : List ℚ :=
  match segments with
  | [] => []
  | [s] => s
  | s :: rest => rest.foldl (joinStep fade_samples) s

/-- The length-enforcement epilogue shared verbatim by `_apply_deepfilter`
(lines 82-87) and `_apply_wpe` (lines 107-112): truncate output longer
than the input segment, zero-pad output that is shorter. -/
def enforceLength (n : ℕ) (result : List ℚ) : List ℚ :=
  if n < result.length then result.take n
  else if result.length < n then result ++ List.replicate (n - result.length) 0
  else result

/-- `_apply_deepfilter(segment, …)`: the external `deep-filter` executable
produces some audio which, after mono-mixdown and resampling back to the
working rate, is the list `enhanced` (an oracle input here); the wrapper
then enforces the exact input length. -/
def _apply_deepfilter (segment : List ℚ) (enhanced : List ℚ) : List ℚ :=
  enforceLength segment.length enhanced

/-- `_apply_wpe(segment, …)`: the external NARA-WPE transform (STFT → wpe
→ iSTFT) produces the list `result` (an oracle input here); the wrapper
then enforces the exact input length. -/
def _apply_wpe (segment : List ℚ) (result : List ℚ) : List ℚ :=
  enforceLength segment.length result

end BigPlumpBird.ProcessAudio

namespace BigPlumpBird

/-- The per-regime recommendation record
`recommended{dereverb, denoise, atten_lim_db}`. -/
structure Recommended where
  dereverb : Bool
  denoise : Bool
  atten_lim_db : ℚ
deriving DecidableEq, Repr, Inhabited

end BigPlumpBird

namespace BigPlumpBird.ProcessAudio

open BigPlumpBird

/-- The `--dereverb` CLI choice `off|auto|on` of process_audio.py. -/
inductive DereverbMode
  | off
  | auto
  | on
deriving DecidableEq, Repr

/-- A regime as read back from the analysis plan by process_audio.py:
the fields the processing loop consumes. -/
structure PlanRegime where
  index : ℤ
  start_ms : ℤ
  end_ms : ℤ
  recommended : Recommended
deriving DecidableEq, Repr, Inhabited

/-- The sort key comparison of line 192,
`sorted(regimes, key=lambda r: (r.get("start_ms", 0), r.get("index", 0)))`:
lexicographic on `(start_ms, index)`. -/
def regimeLE (a b : PlanRegime) : Bool :=
  a.start_ms < b.start_ms || (a.start_ms = b.start_ms && a.index ≤ b.index)

/-- The synthetic whole-file regime built by process_audio.py lines 178-190
when the plan contains no regimes; `end_ms = int(original_len / sr * 1000)`
(`int()` truncation equals the floor on this non-negative value). -/
def defaultPlanRegime (original_len : ℕ) (sr : ℚ) (defaultAtten : ℚ) : PlanRegime :=
  { index := 0
    start_ms := 0
    end_ms := ⌊(original_len : ℚ) / sr * 1000⌋
    recommended := ⟨false, true, defaultAtten⟩ }

/-- `fade_samples = max(0, int(args.overlap_ms * sr / 1000))` (line 194).
For a non-negative operand Python `int()` truncation coincides with the
floor, and for a negative operand both are clamped to `0` by the `max`. -/
def fadeSamplesOf (overlap_ms : ℤ) (sr : ℚ) : ℕ :=
  (max 0 ⌊(overlap_ms : ℚ) * sr / 1000⌋).toNat

/-- The per-regime slicing/processing loop of process_audio.py lines
199-245.  `wpeOut` and `dfOut` are oracles for what the external NARA-WPE
transform and the `deep-filter` executable (after resampling) return for a
given segment; the wrappers `_apply_wpe` / `_apply_deepfilter` enforce the
segment length around them.  For the last regime the slice end is
`original_len`; otherwise it is the regime's `end_ms` converted to samples
(`int(round(end_ms * sr / 1000.0))`, modelled with `round` on `ℚ`) and
clamped into `[start, original_len]`.  Empty slices are skipped; the
cursor always advances to the slice end.  Returns the processed segments
and the final cursor. -/
def processLoop (audio : List ℚ) (sr : ℚ) (mode : DereverbMode)
    (wpeOut dfOut : List ℚ → List ℚ) :
    List PlanRegime → ℕ → List (List ℚ) × ℕ
  | [], cursor => ([], cursor)
  | r :: rest, cursor =>
      let start := cursor
      let stop : ℕ :=
        if rest = [] then audio.length
        else (max (start : ℤ)
          (min (round ((r.end_ms : ℚ) * sr / 1000)) (audio.length : ℤ))).toNat
      let segment := (audio.drop start).take (stop - start)
      if segment = [] then processLoop audio sr mode wpeOut dfOut rest stop
      else
        let doDereverb : Bool :=
          mode = DereverbMode.on || (mode = DereverbMode.auto && r.recommended.dereverb)
        let seg1 := if doDereverb then _apply_wpe segment (wpeOut segment) else segment
        let seg2 :=
          if r.recommended.denoise then _apply_deepfilter seg1 (dfOut seg1) else seg1
        let pr := processLoop audio sr mode wpeOut dfOut rest stop
        (seg2 :: pr.1, pr.2)

/-- `main()` of process_audio.py, lines 171-256, after the audio and the
plan have been read: substitute a default whole-file regime if the plan
has none, sort regimes by `(start_ms, index)`, slice and process each
regime, append any uncovered tail unprocessed, join with crossfades, and
finally truncate or zero-pad to the original length. -/
def processAudio (audio : List ℚ) (sr : ℚ) (planRegimes : List PlanRegime)
    (mode : DereverbMode) (defaultAtten : ℚ) (overlap_ms : ℤ)
    (wpeOut dfOut : List ℚ → List ℚ) : List ℚ :=
  let original_len := audio.length
  let regimes0 :=
    if planRegimes = [] then [defaultPlanRegime original_len sr defaultAtten]
    else planRegimes
  let regimes := regimes0.mergeSort regimeLE
  let fade_samples := fadeSamplesOf overlap_ms sr
  let pr := processLoop audio sr mode wpeOut dfOut regimes 0
  let processed := if pr.2 < original_len then pr.1 ++ [audio.drop pr.2] else pr.1
  let enhanced := _join_segments processed fade_samples
  if original_len < enhanced.length then enhanced.take original_len
  else if enhanced.length < original_len then
    enhanced ++ List.replicate (original_len - enhanced.length) 0
  else enhanced

end BigPlumpBird.ProcessAudio

namespace BigPlumpBird.AnalyzeAudio

open BigPlumpBird

/-- One entry of `sil_info` (analyze_audio.py lines 165-177): per-silence-
span timing in milliseconds plus the rounded RMS-dB and spectral-centroid
features.  The float feature values are modelled as exact rationals; the
regime builder only carries and averages them. -/
structure SilInfo where
  start_ms : ℤ
  end_ms : ℤ
  rms_db : ℚ
  spectral_centroid_hz : ℚ
deriving DecidableEq, Repr, Inhabited

/-- A regime record as assembled by `main()` of analyze_audio.py
(lines 207-233).  `noise_reference` is the `{start_ms, end_ms}` pair of
the longest silence span of the group, or `none` for the synthetic
fallback regime. -/
structure Regime where
  index : ℕ
  start_ms : ℤ
  end_ms : ℤ
  noise_rms_db : ℚ
  spectral_centroid_hz : ℚ
  noise_reference : Option (ℤ × ℤ)
  recommended : Recommended
deriving DecidableEq, Repr, Inhabited

/-- `_detect_changepoints(rms_vals, max_regimes)` (analyze_audio.py lines
88-99).  The ruptures PELT solver is external: `solver_bkps` is an oracle
for the breakpoint list it returns (the computed penalty
`max(3, 2 ln n)` only parameterises that call).  With fewer than 4 values
no change-points are computed; otherwise indices equal to the sequence
length are discarded and the rest truncated to `max_regimes - 1`. -/
def _detect_changepoints (rms_vals : List ℚ) (solver_bkps : List ℕ)
    (max_regimes : ℕ) : List ℕ :=
  if rms_vals.length < 4 then []
  else (solver_bkps.filter (fun b => b < rms_vals.length)).take (max_regimes - 1)

/-- `(s["start_ms"] + s["end_ms"]) // 2` — Python floor division, hence
`Int.fdiv`. -/
def midpointMs (s : SilInfo) : ℤ :=
  Int.fdiv (s.start_ms + s.end_ms) 2

/-- `max(grp, key=lambda x: x["end_ms"] - x["start_ms"])`: the first span
of maximal duration (Python `max` keeps the earliest maximum). -/
def bestRef (grp : List SilInfo) : SilInfo :=
  grp.foldl
    (fun best s =>
      if best.end_ms - best.start_ms < s.end_ms - s.start_ms then s else best)
    grp.headI

/-- `float(np.mean(xs))` on the rational model: sum divided by count. -/
def meanQ (l : List ℚ) : ℚ :=
  l.sum / (l.length : ℚ)

/-- Python `round(x, 2)` on the rational model.  (Python rounds halves to
even; `round` on `ℚ` rounds halves up — the difference can only surface
at exact two-decimal ties and affects no claim considered here.) -/
def round2 (x : ℚ) : ℚ :=
  (round (x * 100) : ℚ) / 100

/-- Python `round(x, 1)` on the rational model (same tie caveat as
`round2`). -/
def round1 (x : ℚ) : ℚ :=
  (round (x * 10) : ℚ) / 10

/-- The regime-building loop of `main()` (analyze_audio.py lines 182-222):
group boundaries are `[0] + cps + [len(sil_info)]`; empty groups are
skipped; the first regime starts at 0 and the last ends at `duration_ms`;
interior boundaries are the midpoints of the silence spans at the group
boundaries; per-group statistics are averaged and the longest span becomes
the noise reference.  (`getD` stands in for Python indexing; on every
input reachable from `_detect_changepoints` the indices are in bounds, so
the default is never consulted.) -/
def buildRegimes (sil : List SilInfo) (cps : List ℕ) (duration_ms : ℤ) :
    List Regime :=
  let group_bounds := 0 :: cps ++ [sil.length]
  (List.range (group_bounds.length - 1)).filterMap (fun gi =>
    let g_start := group_bounds.getD gi 0
    let g_end := group_bounds.getD (gi + 1) 0
    let grp := (sil.drop g_start).take (g_end - g_start)
    if grp = [] then none
    else
      some
        { index := gi
          start_ms := if gi = 0 then 0 else midpointMs (sil.getD g_start default)
          end_ms :=
            if gi = group_bounds.length - 2 then duration_ms
            else midpointMs (sil.getD (group_bounds.getD (gi + 1) 0) default)
          noise_rms_db := round2 (meanQ (grp.map SilInfo.rms_db))
          spectral_centroid_hz := round1 (meanQ (grp.map SilInfo.spectral_centroid_hz))
          noise_reference := some ((bestRef grp).start_ms, (bestRef grp).end_ms)
          recommended := ⟨false, true, 12⟩ })

/-- The explicit value of the regime emitted for group `gi` when no group
is empty; used to restate `buildRegimes` as a plain `map`. -/
def regimeAt (sil : List SilInfo) (cps : List ℕ) (duration_ms : ℤ) (gi : ℕ) :
    Regime :=
  let group_bounds := 0 :: cps ++ [sil.length]
  let g_start := group_bounds.getD gi 0
  let g_end := group_bounds.getD (gi + 1) 0
  let grp := (sil.drop g_start).take (g_end - g_start)
  { index := gi
    start_ms := if gi = 0 then 0 else midpointMs (sil.getD g_start default)
    end_ms :=
      if gi = group_bounds.length - 2 then duration_ms
      else midpointMs (sil.getD (group_bounds.getD (gi + 1) 0) default)
    noise_rms_db := round2 (meanQ (grp.map SilInfo.rms_db))
    spectral_centroid_hz := round1 (meanQ (grp.map SilInfo.spectral_centroid_hz))
    noise_reference := some ((bestRef grp).start_ms, (bestRef grp).end_ms)
    recommended := ⟨false, true, 12⟩ }

/-- The synthetic whole-duration regime of analyze_audio.py lines 224-233,
emitted when the building loop produced no regimes. -/
def fallbackRegime (duration_ms : ℤ) : Regime :=
  { index := 0
    start_ms := 0
    end_ms := duration_ms
    noise_rms_db := -100
    spectral_centroid_hz := 0
    noise_reference := none
    recommended := ⟨false, true, 12⟩ }

/-- `if not regimes: regimes = [ … ]` (lines 224-233). -/
def withFallback (regimes : List Regime) (duration_ms : ℤ) : List Regime :=
  if regimes = [] then [fallbackRegime duration_ms] else regimes

/-- The regime list produced by the analysis stage: change-point detection
over the per-span RMS sequence, the building loop, then the fallback. -/
def analyzeRegimes (sil : List SilInfo) (solver_bkps : List ℕ)
    (max_regimes : ℕ) (duration_ms : ℤ) : List Regime :=
  withFallback
    (buildRegimes sil
      (_detect_changepoints (sil.map SilInfo.rms_db) solver_bkps max_regimes)
      duration_ms)
    duration_ms

/-- `audio[sp["start"]:sp["end"]]` — the sample slice of a span. -/
def sliceSpan (audio : List ℝ) (sp : Span) : List ℝ :=
  (audio.drop sp.start).take (sp.stop - sp.start)

/-- `np.sqrt(np.mean(seg ** 2))` — the root-mean-square of a segment,
over the reals. -/
noncomputable def rmsOf (seg : List ℝ) : ℝ :=
  Real.sqrt ((seg.map (fun x => x ^ 2)).sum / (seg.length : ℝ))

/-- The per-class RMS lists of `_estimate_snr` (analyze_audio.py lines
107-114): one RMS value per span with `end > start`. -/
noncomputable def spanRmsList (audio : List ℝ) (spans : List Span) : List ℝ :=
  (spans.filter (fun sp => sp.start < sp.stop)).map
    (fun sp => rmsOf (sliceSpan audio sp))

/-- `_estimate_snr(audio, speech, silence)` (analyze_audio.py lines
106-121): `None` when either class has no qualifying span; `60.0` when the
averaged noise RMS is below `1e-10`; otherwise
`20·log10(speech_rms / noise_rms)`. -/
noncomputable def _estimate_snr (audio : List ℝ) (speech silence : List Span) :
    Option ℝ :=
  let s_rms := spanRmsList audio speech
  let n_rms := spanRmsList audio silence
  if s_rms.isEmpty || n_rms.isEmpty then none
  else
    let s := s_rms.sum / (s_rms.length : ℝ)
    let n := n_rms.sum / (n_rms.length : ℝ)
    if n < 1e-10 then some 60
    else some (20 * Real.logb 10 (s / n))

/-- `np.abs(np.fft.rfft(seg))[k]`: the magnitude of the `k`-th discrete
Fourier coefficient, `|Σ_j seg[j]·exp(-2πi·k·j/n)|`. -/
noncomputable def rfftMag (seg : List ℝ) (k : ℕ) : ℝ :=
  Complex.abs (∑ j ∈ Finset.range seg.length,
    ((seg.getD j 0 : ℝ) : ℂ)
      * Complex.exp (-2 * (Real.pi : ℂ) * Complex.I * (k : ℂ) * (j : ℂ)
          / (seg.length : ℂ)))

/-- `np.fft.rfftfreq(n, d=1/sr)[k] = k·sr/n`. -/
noncomputable def rfftFreq (n : ℕ) (sr : ℝ) (k : ℕ) : ℝ :=
  (k : ℝ) * sr / (n : ℝ)

/-- `spec.sum()` over the one-sided spectrum (indices `0 … n/2`). -/
noncomputable def totalSpec (seg : List ℝ) : ℝ :=
  ∑ k ∈ Finset.range (seg.length / 2 + 1), rfftMag seg k

/-- `_spectral_centroid(seg, sr)` (analyze_audio.py lines 73-81): `0.0`
for segments shorter than 64 samples, `0.0` when the summed spectral
magnitude is below `1e-10`, otherwise the magnitude-weighted mean
frequency `np.dot(freqs, spec) / total`. -/
noncomputable def _spectral_centroid (seg : List ℝ) (sr : ℝ) : ℝ :=
  if seg.length < 64 then 0
  else if totalSpec seg < 1e-10 then 0
  else
    (∑ k ∈ Finset.range (seg.length / 2 + 1), rfftFreq seg.length sr k * rfftMag seg k)
      / totalSpec seg

end BigPlumpBird.AnalyzeAudio

namespace BigPlumpBird.ProcessAudio

theorem length_fadeOutCoeffs (n : ℕ) : (fadeOutCoeffs n).length = n := by
  simp only [fadeOutCoeffs, List.length_map, List.length_range]

theorem length_fadeInCoeffs (n : ℕ) : (fadeInCoeffs n).length = n := by
  simp only [fadeInCoeffs, List.length_map, List.length_range]

theorem length_applyFadeTail (out : List ℚ) (n : ℕ) (h : n ≤ out.length) :
    (applyFadeTail out n).length = out.length := by
  simp [applyFadeTail, length_fadeOutCoeffs]
  omega

theorem length_applyFadeHead (seg : List ℚ) (n : ℕ) (h : n ≤ seg.length) :
    (applyFadeHead seg n).length = seg.length := by
  simp [applyFadeHead, length_fadeInCoeffs]
  omega

theorem length_joinStep (fade_samples : ℕ) (out seg : List ℚ) :
    (joinStep fade_samples out seg).length = out.length + seg.length := by
  unfold joinStep
  by_cases h : 0 < min fade_samples (min out.length seg.length)
  · rw [if_pos h, List.length_append,
      length_applyFadeTail _ _ (by omega), length_applyFadeHead _ _ (by omega)]
  · rw [if_neg h, List.length_append]

theorem length_foldl_joinStep (fade_samples : ℕ) (rest : List (List ℚ)) :
    ∀ out : List ℚ, (rest.foldl (joinStep fade_samples) out).length
      = out.length + (rest.map List.length).sum := by
  induction rest with
  | nil => intro out; simp
  | cons seg rest ih =>
      intro out
      simp only [List.foldl_cons, List.map_cons, List.sum_cons]
      rw [ih, length_joinStep]
      omega

theorem join_two_eval : _join_segments [[1, 1], [1, 1]] 2 = [1, 1/2, 0, 1/2] := by
  simp [_join_segments, joinStep, applyFadeTail, applyFadeHead, fadeOutCoeffs,
    fadeInCoeffs, List.range_succ]
  norm_num

theorem length_enforceLength (n : ℕ) (result : List ℚ) :
    (enforceLength n result).length = n := by
  unfold enforceLength
  split
  · simp; omega
  · split
    · simp; omega
    · omega

theorem getD_zipWith_mul (l1 l2 : List ℚ) (i : ℕ)
    (h1 : i < l1.length) (h2 : i < l2.length) :
    (List.zipWith (· * ·) l1 l2).getD i 0 = l1.getD i 0 * l2.getD i 0 := by
  induction l1 generalizing l2 i with
  | nil => simp at h1
  | cons x xs ih =>
      cases l2 with
      | nil => simp at h2
      | cons y ys =>
          cases i with
          | zero => simp
          | succ j =>
              simp only [List.zipWith_cons_cons, List.getD_cons_succ]
              exact ih ys j (by simpa using h1) (by simpa using h2)

theorem getD_fadeOutCoeffs (n k : ℕ) (h : k < n) :
    (fadeOutCoeffs n).getD k 0 = 1 - (k : ℚ) / (n : ℚ) := by
  rw [List.getD_eq_getElem _ _ (by simpa [length_fadeOutCoeffs] using h)]
  simp [fadeOutCoeffs]

theorem getD_fadeInCoeffs (n k : ℕ) (h : k < n) :
    (fadeInCoeffs n).getD k 0 = (k : ℚ) / (n : ℚ) := by
  rw [List.getD_eq_getElem _ _ (by simpa [length_fadeInCoeffs] using h)]
  simp [fadeInCoeffs]

theorem getD_drop_q (l : List ℚ) (m k : ℕ) (h : m + k < l.length) :
    (l.drop m).getD k 0 = l.getD (m + k) 0 := by
  rw [List.getD_eq_getElem _ _ (by simp; omega), List.getD_eq_getElem _ _ h]
  simp

theorem getD_take_q (l : List ℚ) (m k : ℕ) (hk : k < m) (hl : k < l.length) :
    (l.take m).getD k 0 = l.getD k 0 := by
  rw [List.getD_eq_getElem _ _ (by simp; omega), List.getD_eq_getElem _ _ hl]
  simp

theorem getD_applyFadeTail (a : List ℚ) (n k : ℕ) (hn : n ≤ a.length) (hk : k < n) :
    (applyFadeTail a n).getD (a.length - n + k) 0
      = a.getD (a.length - n + k) 0 * (1 - (k : ℚ) / (n : ℚ)) := by
  unfold applyFadeTail
  rw [List.getD_append_right _ _ _ _ (by simp; try omega)]
  have hidx : a.length - n + k - (a.take (a.length - n)).length = k := by
    simp
    try omega
  rw [hidx]
  rw [getD_zipWith_mul _ _ _ (by simp; omega) (by rw [length_fadeOutCoeffs]; omega)]
  rw [getD_drop_q _ _ _ (by omega), getD_fadeOutCoeffs _ _ hk]

theorem getD_applyFadeHead (b : List ℚ) (n k : ℕ) (hn : n ≤ b.length) (hk : k < n) :
    (applyFadeHead b n).getD k 0 = b.getD k 0 * ((k : ℚ) / (n : ℚ)) := by
  unfold applyFadeHead
  rw [List.getD_append _ _ _ _ (by simp [length_fadeInCoeffs]; omega)]
  rw [getD_zipWith_mul _ _ _ (by simp; omega) (by rw [length_fadeInCoeffs]; omega)]
  rw [getD_take_q _ _ _ hk (by omega), getD_fadeInCoeffs _ _ hk]

theorem length_clampPad (l : List ℚ) (n : ℕ) :
    (if n < l.length then l.take n
     else if l.length < n then l ++ List.replicate (n - l.length) 0
     else l).length = n := by
  split
  · simp
    omega
  · split
    · simp
      omega
    · omega

theorem join_two_eq (a b : List ℚ) (fade : ℕ) :
    _join_segments [a, b] fade = joinStep fade a b := by
  simp [_join_segments]

theorem joinStep_pos_eq (fade : ℕ) (a b : List ℚ)
    (h : 0 < min fade (min a.length b.length)) :
    joinStep fade a b
      = applyFadeTail a (min fade (min a.length b.length))
          ++ applyFadeHead b (min fade (min a.length b.length)) := by
  unfold joinStep
  exact if_pos h

theorem join_two_getD_tail (a b : List ℚ) (fade : ℕ)
    (hpos : 0 < min fade (min a.length b.length)) (k : ℕ)
    (hk : k < min fade (min a.length b.length)) :
    (_join_segments [a, b] fade).getD
        (a.length - min fade (min a.length b.length) + k) 0
      = a.getD (a.length - min fade (min a.length b.length) + k) 0
          * (1 - (k : ℚ) / ((min fade (min a.length b.length) : ℕ) : ℚ)) := by
  have hna : min fade (min a.length b.length) ≤ a.length := by omega
  rw [join_two_eq, joinStep_pos_eq _ _ _ hpos,
    List.getD_append _ _ _ _ (by rw [length_applyFadeTail _ _ hna]; omega)]
  exact getD_applyFadeTail a _ k hna hk

theorem join_two_getD_head (a b : List ℚ) (fade : ℕ)
    (hpos : 0 < min fade (min a.length b.length)) (k : ℕ)
    (hk : k < min fade (min a.length b.length)) :
    (_join_segments [a, b] fade).getD (a.length + k) 0
      = b.getD k 0 * ((k : ℚ) / ((min fade (min a.length b.length) : ℕ) : ℚ)) := by
  have hna : min fade (min a.length b.length) ≤ a.length := by omega
  have hnb : min fade (min a.length b.length) ≤ b.length := by omega
  rw [join_two_eq, joinStep_pos_eq _ _ _ hpos,
    List.getD_append_right _ _ _ _ (by rw [length_applyFadeTail _ _ hna]; omega),
    length_applyFadeTail _ _ hna, Nat.add_sub_cancel_left]
  exact getD_applyFadeHead b _ k hnb hk

end BigPlumpBird.ProcessAudio

namespace BigPlumpBird.ProcessAudio

/-- C6: for every list of segments and every fade length, `_join_segments`
returns an output whose length is the sum of the input segment lengths;
with zero segments the output is empty, and with exactly one segment the
output is that segment unchanged. -/
theorem claim_C6_join_length (segments : List (List ℚ)) (fade_samples : ℕ) :
    (_join_segments segments fade_samples).length = (segments.map List.length).sum ∧
    _join_segments [] fade_samples = [] ∧
    ∀ s : List ℚ, _join_segments [s] fade_samples = s := by
  refine ⟨?_, rfl, fun s => rfl⟩
  match segments with
  | [] => simp [_join_segments]
  | [s] => simp [_join_segments]
  | s :: ss :: rest =>
      show ((ss :: rest).foldl (joinStep fade_samples) s).length = _
      rw [length_foldl_joinStep]
      simp

/-- C7: for every input segment and every output the external transform
produces, `_apply_deepfilter` and `_apply_wpe` both return a segment with
exactly the input's sample count (longer output truncated, shorter output
zero-padded). -/
theorem claim_C7_transform_length (segment enhanced result : List ℚ) :
    (_apply_deepfilter segment enhanced).length = segment.length ∧
    (_apply_wpe segment result).length = segment.length :=
  ⟨length_enforceLength _ _, length_enforceLength _ _⟩

/-- C1: for every input signal, every analysis plan, and every behaviour of
the external transforms, the final enhanced output of the processing
pipeline has exactly the sample count of the original input: after joining
the processed segments the result is truncated if longer and zero-padded
if shorter, so the output length always equals `original_len`. -/
theorem claim_C1_output_length (audio : List ℚ) (sr : ℚ)
    (planRegimes : List PlanRegime) (mode : DereverbMode) (defaultAtten : ℚ)
    (overlap_ms : ℤ) (wpeOut dfOut : List ℚ → List ℚ) :
    (processAudio audio sr planRegimes mode defaultAtten overlap_ms
        wpeOut dfOut).length = audio.length := by
  simp only [processAudio]
  exact length_clampPad _ _

/-- C8 (counterexample): for the two constant segments `[1, 1]` and
`[1, 1]` joined with fade length `2`, the output is `[1, 1/2, 0, 1/2]`;
neither the sample at the centre of the fade window (index 2, the first
sample after the junction) nor the one just before it equals the
boundary samples scaled by `0.5` each, `0.5·1 + 0.5·1 = 1`: the fold
attenuates the two sides separately and never overlap-adds them. -/
theorem claim_C8_counterexample :
    _join_segments [[1, 1], [1, 1]] 2 = [1, 1/2, 0, 1/2] ∧
    (_join_segments [[1, 1], [1, 1]] 2).getD 2 0 ≠ (1/2 : ℚ) * 1 + (1/2) * 1 ∧
    (_join_segments [[1, 1], [1, 1]] 2).getD 1 0 ≠ (1/2 : ℚ) * 1 + (1/2) * 1 := by
  refine ⟨join_two_eval, ?_, ?_⟩ <;> rw [join_two_eval] <;> norm_num

/-- C8 (amended): for a join of two segments with effective fade length
`n = min(fade, len(a), len(b)) > 0`, sample `k` of the fade-out region is
the first segment's sample scaled by `1 - k/n` and sample `k` of the
fade-in region is the second segment's sample scaled by `k/n` (linear
ramp); hence the amplitude at the centre of the fade window (the first
sample after the junction) is `0`, not the `0.5`-scaled average of the
two boundary samples.  For fade length `0` the join is a pure
concatenation, and no samples are ever dropped: the output length is the
sum of the two input lengths. -/
theorem claim_C8_crossfade_ramp (a b : List ℚ) (fade : ℕ)
    (hpos : 0 < min fade (min a.length b.length)) :
    (∀ k, k < min fade (min a.length b.length) →
      (_join_segments [a, b] fade).getD
          (a.length - min fade (min a.length b.length) + k) 0
        = a.getD (a.length - min fade (min a.length b.length) + k) 0
            * (1 - (k : ℚ) / ((min fade (min a.length b.length) : ℕ) : ℚ))) ∧
    (∀ k, k < min fade (min a.length b.length) →
      (_join_segments [a, b] fade).getD (a.length + k) 0
        = b.getD k 0 * ((k : ℚ) / ((min fade (min a.length b.length) : ℕ) : ℚ))) ∧
    (_join_segments [a, b] fade).getD a.length 0 = 0 ∧
    _join_segments [a, b] 0 = a ++ b ∧
    (_join_segments [a, b] fade).length = a.length + b.length := by
  refine ⟨fun k hk => join_two_getD_tail a b fade hpos k hk,
    fun k hk => join_two_getD_head a b fade hpos k hk, ?_, ?_, ?_⟩
  · have h := join_two_getD_head a b fade hpos 0 hpos
    simpa using h
  · simp [_join_segments, joinStep]
  · rw [join_two_eq, length_joinStep]

/-- C8 (witness): the amended theorem applied at the concrete input
`a = b = [1, 1]`, `fade = 2`. -/
theorem claim_C8_witness :
    0 < min 2 (min ([1, 1] : List ℚ).length ([1, 1] : List ℚ).length) ∧
    (_join_segments [[1, 1], [1, 1]] 2).getD ([1, 1] : List ℚ).length 0 = 0 :=
  ⟨by norm_num, (claim_C8_crossfade_ramp [1, 1] [1, 1] 2 (by norm_num)).2.2.1⟩

end BigPlumpBird.ProcessAudio

namespace BigPlumpBird.AnalyzeAudio

theorem filterMap_eq_map_of_forall {α β : Type} (l : List α) (f : α → Option β)
    (g : α → β) (h : ∀ x ∈ l, f x = some (g x)) : l.filterMap f = l.map g := by
  induction l with
  | nil => rfl
  | cons x xs ih =>
      rw [List.filterMap_cons, h x (List.mem_cons_self x xs), List.map_cons,
        ih (fun y hy => h y (List.mem_cons_of_mem x hy))]

theorem pairwise_getD_lt (l : List ℕ) (h : List.Pairwise (· < ·) l) (i j : ℕ)
    (hij : i < j) (hj : j < l.length) :
    l.getD i 0 < l.getD j 0 := by
  rw [List.getD_eq_getElem _ _ (lt_trans hij hj), List.getD_eq_getElem _ _ hj]
  exact List.pairwise_iff_getElem.mp h i j (lt_trans hij hj) hj hij

theorem gb_getD_last (cps : List ℕ) (n : ℕ) :
    (0 :: cps ++ [n]).getD (cps.length + 1) 0 = n := by
  have h : (0 :: cps ++ [n]) = (0 :: cps) ++ [n] := by simp
  rw [h, List.getD_append_right _ _ _ _ (by simp)]
  simp

theorem getD_map_range {α : Type} (g : ℕ → α) (d : α) (m i : ℕ) (h : i < m) :
    ((List.range m).map g).getD i d = g i := by
  rw [List.getD_eq_getElem _ _ (by simpa using h)]
  simp

theorem buildRegimes_eq_map (sil : List SilInfo) (cps : List ℕ) (dur : ℤ)
    (h : List.Pairwise (· < ·) (0 :: cps ++ [sil.length])) :
    buildRegimes sil cps dur
      = (List.range (cps.length + 1)).map (regimeAt sil cps dur) := by
  have hlen1 : (0 :: cps ++ [sil.length]).length - 1 = cps.length + 1 := by simp
  simp only [buildRegimes]
  rw [hlen1]
  apply filterMap_eq_map_of_forall
  intro gi hgi
  rw [List.mem_range] at hgi
  have hb : (0 :: cps ++ [sil.length]).getD gi 0
      < (0 :: cps ++ [sil.length]).getD (gi + 1) 0 :=
    pairwise_getD_lt _ h gi (gi + 1) (Nat.lt_succ_self gi) (by simp; omega)
  have hn : (0 :: cps ++ [sil.length]).getD gi 0 < sil.length := by
    have hle : gi ≤ cps.length := by omega
    rcases Nat.lt_or_ge gi (cps.length + 1) with hlt | hge
    · have := pairwise_getD_lt _ h gi (cps.length + 1) hlt (by simp)
      rwa [gb_getD_last] at this
    · omega
  have hgrp :
      ¬((sil.drop ((0 :: cps ++ [sil.length]).getD gi 0)).take
          ((0 :: cps ++ [sil.length]).getD (gi + 1) 0
            - (0 :: cps ++ [sil.length]).getD gi 0) = []) := by
    intro hempty
    have hlen : ((sil.drop ((0 :: cps ++ [sil.length]).getD gi 0)).take
        ((0 :: cps ++ [sil.length]).getD (gi + 1) 0
          - (0 :: cps ++ [sil.length]).getD gi 0)).length = 0 := by
      rw [hempty]; rfl
    rw [List.length_take, List.length_drop] at hlen
    omega
  rw [if_neg hgrp]
  rfl

theorem regimeAt_start_zero (sil : List SilInfo) (cps : List ℕ) (dur : ℤ) :
    (regimeAt sil cps dur 0).start_ms = 0 := by
  simp [regimeAt]

theorem regimeAt_last_end (sil : List SilInfo) (cps : List ℕ) (dur : ℤ) :
    (regimeAt sil cps dur cps.length).end_ms = dur := by
  simp [regimeAt]

theorem regimeAt_contig (sil : List SilInfo) (cps : List ℕ) (dur : ℤ) (i : ℕ)
    (h : i < cps.length) :
    (regimeAt sil cps dur i).end_ms = (regimeAt sil cps dur (i + 1)).start_ms := by
  simp only [regimeAt]
  rw [if_neg (by simp; omega), if_neg (by omega)]

theorem buildRegimes_props (sil : List SilInfo) (cps : List ℕ) (dur : ℤ)
    (hgb : List.Pairwise (· < ·) (0 :: cps ++ [sil.length])) :
    buildRegimes sil cps dur ≠ [] ∧
    (buildRegimes sil cps dur).length = cps.length + 1 ∧
    ((buildRegimes sil cps dur).getD 0 default).start_ms = 0 ∧
    ((buildRegimes sil cps dur).getD cps.length default).end_ms = dur ∧
    ∀ i, i < cps.length →
      ((buildRegimes sil cps dur).getD i default).end_ms
        = ((buildRegimes sil cps dur).getD (i + 1) default).start_ms := by
  have hmap := buildRegimes_eq_map sil cps dur hgb
  rw [hmap]
  refine ⟨by simp, by simp, ?_, ?_, ?_⟩
  · rw [getD_map_range _ _ _ _ (by omega)]
    exact regimeAt_start_zero sil cps dur
  · rw [getD_map_range _ _ _ _ (by omega)]
    exact regimeAt_last_end sil cps dur
  · intro i hi
    rw [getD_map_range _ _ _ _ (by omega), getD_map_range _ _ _ _ (by omega)]
    exact regimeAt_contig sil cps dur i hi

end BigPlumpBird.AnalyzeAudio

namespace BigPlumpBird.AnalyzeAudio

theorem detect_pairwise (rms : List ℚ) (bkps : List ℕ) (K : ℕ)
    (h : List.Pairwise (· < ·) bkps) :
    List.Pairwise (· < ·) (_detect_changepoints rms bkps K) := by
  unfold _detect_changepoints
  split
  · exact List.Pairwise.nil
  · exact (h.filter _).sublist (List.take_sublist _ _)

theorem detect_mem_lt (rms : List ℚ) (bkps : List ℕ) (K : ℕ) (b : ℕ)
    (hb : b ∈ _detect_changepoints rms bkps K) : b < rms.length := by
  unfold _detect_changepoints at hb
  split at hb
  · simp at hb
  · have hb2 := List.mem_of_mem_take hb
    simp only [List.mem_filter, decide_eq_true_eq] at hb2
    exact hb2.2

theorem detect_mem_src (rms : List ℚ) (bkps : List ℕ) (K : ℕ) (b : ℕ)
    (hb : b ∈ _detect_changepoints rms bkps K) : b ∈ bkps := by
  unfold _detect_changepoints at hb
  split at hb
  · simp at hb
  · exact (List.mem_filter.mp (List.mem_of_mem_take hb)).1

theorem detect_length_le (rms : List ℚ) (bkps : List ℕ) (K : ℕ) :
    (_detect_changepoints rms bkps K).length ≤ K - 1 := by
  unfold _detect_changepoints
  split
  · simp
  · exact List.length_take_le _ _

theorem buildRegimes_length_le (sil : List SilInfo) (cps : List ℕ) (dur : ℤ) :
    (buildRegimes sil cps dur).length ≤ cps.length + 1 := by
  simp only [buildRegimes]
  exact le_trans (List.length_filterMap_le _ _) (by simp)

/-- C2: for every silence-span feature list and every solver output
satisfying the external change-point solver's contract (strictly
increasing, positive indices — ruptures PELT with `min_size=2` returns
breakpoints that are ≥ 2 and strictly increasing), the regime list
produced by the analysis stage (including the synthetic fallback case) is
non-empty, contiguous and ordered: the first regime starts at 0, the last
regime ends at `duration_ms`, and each regime's `end_ms` equals the next
regime's `start_ms`. -/
theorem claim_C2_regimes_contiguous (sil : List SilInfo) (bkps : List ℕ)
    (K : ℕ) (dur : ℤ)
    (hsorted : List.Pairwise (· < ·) bkps) (hpos : ∀ b ∈ bkps, 0 < b) :
    analyzeRegimes sil bkps K dur ≠ [] ∧
    ((analyzeRegimes sil bkps K dur).getD 0 default).start_ms = 0 ∧
    ((analyzeRegimes sil bkps K dur).getD
        ((analyzeRegimes sil bkps K dur).length - 1) default).end_ms = dur ∧
    ∀ i, i + 1 < (analyzeRegimes sil bkps K dur).length →
      ((analyzeRegimes sil bkps K dur).getD i default).end_ms
        = ((analyzeRegimes sil bkps K dur).getD (i + 1) default).start_ms := by
  by_cases hs : sil = []
  · subst hs
    have hfl : analyzeRegimes ([] : List SilInfo) bkps K dur = [fallbackRegime dur] := rfl
    rw [hfl]
    refine ⟨by simp, by simp [fallbackRegime], by simp [fallbackRegime], ?_⟩
    intro i hi
    simp at hi
  · have hcs := detect_pairwise (sil.map SilInfo.rms_db) bkps K hsorted
    have hgb : List.Pairwise (· < ·)
        (0 :: _detect_changepoints (sil.map SilInfo.rms_db) bkps K ++ [sil.length]) := by
      rw [List.cons_append, List.pairwise_cons]
      refine ⟨?_, ?_⟩
      · intro b hb
        rcases List.mem_append.mp hb with h1 | h1
        · exact hpos b (detect_mem_src _ _ _ _ h1)
        · simp at h1
          subst h1
          exact List.length_pos.mpr hs
      · rw [List.pairwise_append]
        refine ⟨hcs, by simp, ?_⟩
        intro x hx y hy
        simp at hy
        subst hy
        have := detect_mem_lt _ _ _ _ hx
        simpa using this
    obtain ⟨hne, hlen, hstart, hlast, hcontig⟩ :=
      buildRegimes_props sil (_detect_changepoints (sil.map SilInfo.rms_db) bkps K) dur hgb
    have hwf : analyzeRegimes sil bkps K dur
        = buildRegimes sil (_detect_changepoints (sil.map SilInfo.rms_db) bkps K) dur := by
      unfold analyzeRegimes withFallback
      rw [if_neg hne]
    rw [hwf]
    refine ⟨hne, hstart, ?_, ?_⟩
    · rw [hlen]
      simpa using hlast
    · intro i hi
      rw [hlen] at hi
      exact hcontig i (by omega)

/-- C2 (witness): the contiguity theorem applied to a concrete four-span
input with one change-point at index 2. -/
theorem claim_C2_witness :
    ((analyzeRegimes
        [⟨0, 100, -50, 0⟩, ⟨200, 300, -50, 0⟩, ⟨400, 500, -20, 0⟩, ⟨600, 700, -20, 0⟩]
        [2] 8 1000).getD 0 default).start_ms = 0 ∧
    ((analyzeRegimes
        [⟨0, 100, -50, 0⟩, ⟨200, 300, -50, 0⟩, ⟨400, 500, -20, 0⟩, ⟨600, 700, -20, 0⟩]
        [2] 8 1000).getD
      ((analyzeRegimes
        [⟨0, 100, -50, 0⟩, ⟨200, 300, -50, 0⟩, ⟨400, 500, -20, 0⟩, ⟨600, 700, -20, 0⟩]
        [2] 8 1000).length - 1) default).end_ms = 1000 :=
  ⟨(claim_C2_regimes_contiguous _ [2] 8 1000 (by decide) (by decide)).2.1,
   (claim_C2_regimes_contiguous _ [2] 8 1000 (by decide) (by decide)).2.2.1⟩

/-- C3: for every configuration with maximum regime count `K ≥ 1`:
with fewer than 4 silence spans no change-points are computed; detected
change-point indices are all strictly below the sequence length (indices
equal to the length are discarded); at most `K - 1` boundaries survive
truncation; and the analysis stage produces at most `K` regimes. -/
theorem claim_C3_regime_bound (sil : List SilInfo) (bkps : List ℕ) (K : ℕ)
    (dur : ℤ) (hK : 1 ≤ K) :
    (sil.length < 4 → _detect_changepoints (sil.map SilInfo.rms_db) bkps K = []) ∧
    (∀ b ∈ _detect_changepoints (sil.map SilInfo.rms_db) bkps K, b < sil.length) ∧
    (_detect_changepoints (sil.map SilInfo.rms_db) bkps K).length ≤ K - 1 ∧
    (analyzeRegimes sil bkps K dur).length ≤ K := by
  refine ⟨?_, ?_, detect_length_le _ _ _, ?_⟩
  · intro h4
    unfold _detect_changepoints
    rw [if_pos (by simpa using h4)]
  · intro b hb
    have := detect_mem_lt _ _ _ _ hb
    simpa using this
  · unfold analyzeRegimes withFallback
    split
    · simpa using hK
    · have h1 := buildRegimes_length_le sil
        (_detect_changepoints (sil.map SilInfo.rms_db) bkps K) dur
      have h2 := detect_length_le (sil.map SilInfo.rms_db) bkps K
      omega

/-- C3 (witness): the bound applied at the degenerate concrete input with
no silence spans and `K = 1`. -/
theorem claim_C3_witness :
    (1 : ℕ) ≤ 1 ∧ (analyzeRegimes [] [] 1 0).length ≤ 1 :=
  ⟨le_refl 1, (claim_C3_regime_bound [] [] 1 0 (le_refl 1)).2.2.2⟩

/-- C9: whenever the regime-building loop produces no regimes, the
analysis stage emits exactly one synthetic regime covering
`[0, duration_ms]` with `noise_rms_db = -100`, `noise_reference = null`
and the default recommendation (dereverb off, denoise on,
`atten_lim_db = 12`), so the plan always contains at least one regime. -/
theorem claim_C9_fallback (sil : List SilInfo) (bkps : List ℕ) (K : ℕ)
    (dur : ℤ)
    (h : buildRegimes sil
        (_detect_changepoints (sil.map SilInfo.rms_db) bkps K) dur = []) :
    analyzeRegimes sil bkps K dur
      = [{ index := 0, start_ms := 0, end_ms := dur, noise_rms_db := -100,
           spectral_centroid_hz := 0, noise_reference := none,
           recommended := ⟨false, true, 12⟩ }] := by
  unfold analyzeRegimes withFallback
  rw [h]
  rfl

/-- C9 (witness): with zero silence spans the building loop produces no
regimes, and the analysis output is exactly the synthetic fallback
regime. -/
theorem claim_C9_witness :
    buildRegimes []
      (_detect_changepoints (([] : List SilInfo).map SilInfo.rms_db) [] 8) 5000 = [] ∧
    analyzeRegimes [] [] 8 5000
      = [{ index := 0, start_ms := 0, end_ms := 5000, noise_rms_db := -100,
           spectral_centroid_hz := 0, noise_reference := none,
           recommended := ⟨false, true, 12⟩ }] :=
  ⟨rfl, claim_C9_fallback [] [] 8 5000 rfl⟩

end BigPlumpBird.AnalyzeAudio

namespace BigPlumpBird

/-- C4 (counterexample): the Span Classifier given an empty speech-span
list does not return an empty silence-span list for every input: with 10
total samples and minimum gap 0 it returns the whole-signal span
`[0, 10)`. -/
theorem claim_C4_counterexample :
    _silence_spans [] 10 0 = [⟨0, 10⟩] ∧ _silence_spans [] 10 0 ≠ ([] : List Span) :=
  ⟨rfl, by decide⟩

/-- C4 (amended): when given an empty speech-span list the Span Classifier
raises no error and returns the single whole-signal silence span
`[0, total_samples)` when `total_samples ≥ min_gap`, and the empty list
otherwise. -/
theorem claim_C4_empty_speech (total_samples min_gap : ℕ) :
    _silence_spans [] total_samples min_gap
      = if min_gap ≤ total_samples then [⟨0, total_samples⟩] else [] := by
  show _silence_spans.go total_samples min_gap [] 0 = _
  unfold _silence_spans.go
  by_cases h : min_gap ≤ total_samples
  · rw [if_pos (by push_cast; omega), if_pos h]
  · rw [if_neg (by push_cast; omega), if_neg h]

end BigPlumpBird

namespace BigPlumpBird.AnalyzeAudio

theorem rmsOf_pair (x : ℝ) (hx : 0 ≤ x) : rmsOf [x, x] = x := by
  unfold rmsOf
  have h1 : (([x, x].map (fun y => y ^ 2)).sum) / (([x, x] : List ℝ).length : ℝ)
      = x ^ 2 := by
    simp
  rw [h1, Real.sqrt_sq hx]

theorem rmsOf_single_zero : rmsOf [(0 : ℝ)] = 0 := by
  unfold rmsOf
  simp

/-- C5: for every signal with speech and silence spans: if either class
has zero non-empty spans the SNR estimate is `none` rather than a default
number; if the averaged noise RMS is below `1e-10` the estimate is
exactly `60.0`; otherwise it is `20·log10(speech_rms / noise_rms)` — in
particular speech RMS `0.1` with noise RMS `0.01` gives exactly `20.0`. -/
theorem claim_C5_snr_estimate (audio : List ℝ) (speech silence : List Span) :
    ((speech.filter (fun sp => sp.start < sp.stop) = []
        ∨ silence.filter (fun sp => sp.start < sp.stop) = []) →
      _estimate_snr audio speech silence = none) ∧
    (spanRmsList audio speech ≠ [] → spanRmsList audio silence ≠ [] →
      (spanRmsList audio silence).sum / ((spanRmsList audio silence).length : ℝ)
          < 1e-10 →
      _estimate_snr audio speech silence = some 60) ∧
    (spanRmsList audio speech ≠ [] → spanRmsList audio silence ≠ [] →
      ¬((spanRmsList audio silence).sum / ((spanRmsList audio silence).length : ℝ)
          < 1e-10) →
      _estimate_snr audio speech silence
        = some (20 * Real.logb 10
            (((spanRmsList audio speech).sum / ((spanRmsList audio speech).length : ℝ))
              / ((spanRmsList audio silence).sum
                  / ((spanRmsList audio silence).length : ℝ))))) ∧
    _estimate_snr [0.1, 0.1, 0.01, 0.01] [⟨0, 2⟩] [⟨2, 4⟩] = some 20 := by
  refine ⟨?_, ?_, ?_, ?_⟩
  · intro h
    simp only [_estimate_snr]
    rw [if_pos (by rcases h with h | h <;> simp [spanRmsList, h])]
  · intro hs hn hlt
    simp only [_estimate_snr]
    rw [if_neg (by simp [hs, hn]), if_pos hlt]
  · intro hs hn hge
    simp only [_estimate_snr]
    rw [if_neg (by simp [hs, hn]), if_neg hge]
  · have hfs : spanRmsList [0.1, 0.1, 0.01, 0.01] [⟨0, 2⟩] = [(0.1 : ℝ)] := by
      simp only [spanRmsList, sliceSpan]
      norm_num
      exact rmsOf_pair (1 / 10) (by norm_num)
    have hns : spanRmsList [0.1, 0.1, 0.01, 0.01] [⟨2, 4⟩] = [(0.01 : ℝ)] := by
      simp only [spanRmsList, sliceSpan]
      norm_num
      exact rmsOf_pair (1 / 100) (by norm_num)
    simp only [_estimate_snr, hfs, hns]
    rw [if_neg (by simp), if_neg (by norm_num [List.sum_cons, List.sum_nil])]
    have hlog : Real.logb 10
        (([(0.1 : ℝ)].sum / ([(0.1 : ℝ)].length : ℝ))
          / ([(0.01 : ℝ)].sum / ([(0.01 : ℝ)].length : ℝ))) = 1 := by
      have h10 : ([(0.1 : ℝ)].sum / ([(0.1 : ℝ)].length : ℝ))
          / ([(0.01 : ℝ)].sum / ([(0.01 : ℝ)].length : ℝ)) = 10 := by
        norm_num
      rw [h10]
      exact Real.logb_self_eq_one (by norm_num)
    rw [hlog]
    norm_num

/-- C5 (witness): the SNR theorem applied at concrete inputs — empty span
lists give `none`, and an all-zero noise span gives the `60.0` ceiling. -/
theorem claim_C5_witness :
    _estimate_snr ([] : List ℝ) [] [] = none ∧
    _estimate_snr [0, 0] [⟨0, 1⟩] [⟨1, 2⟩] = some 60 :=
  ⟨(claim_C5_snr_estimate [] [] []).1 (Or.inl rfl),
   (claim_C5_snr_estimate [0, 0] [⟨0, 1⟩] [⟨1, 2⟩]).2.1
     (by simp [spanRmsList])
     (by simp [spanRmsList])
     (by
       have h : spanRmsList [(0 : ℝ), 0] [⟨1, 2⟩] = [rmsOf [0]] := by
         simp [spanRmsList, sliceSpan]
       rw [h, rmsOf_single_zero]
       norm_num)⟩

theorem getD_replicate_zero (m j : ℕ) : (List.replicate m (0 : ℝ)).getD j 0 = 0 := by
  rcases Nat.lt_or_ge j m with h | h
  · rw [List.getD_eq_getElem _ _ (by simpa using h)]
    simp
  · rw [List.getD_eq_default _ _ (by simpa using h)]

theorem rfftMag_replicate_zero (m k : ℕ) :
    rfftMag (List.replicate m (0 : ℝ)) k = 0 := by
  unfold rfftMag
  simp [getD_replicate_zero]

theorem totalSpec_replicate_zero (m : ℕ) :
    totalSpec (List.replicate m (0 : ℝ)) = 0 := by
  unfold totalSpec
  simp [rfftMag_replicate_zero]

/-- C10: for every segment of length at least 64 whose summed spectral
magnitude is below `1e-10`, the spectral centroid is `0.0`; segments
shorter than 64 samples also yield `0.0`, so a zero centroid does not
uniquely identify a too-short span, and the guarded division makes the
function total. -/
theorem claim_C10_centroid_zero (seg : List ℝ) (sr : ℝ) :
    (64 ≤ seg.length → totalSpec seg < 1e-10 → _spectral_centroid seg sr = 0) ∧
    (seg.length < 64 → _spectral_centroid seg sr = 0) := by
  constructor
  · intro h64 htot
    unfold _spectral_centroid
    rw [if_neg (by omega), if_pos htot]
  · intro h
    unfold _spectral_centroid
    rw [if_pos h]

/-- C10 (witness): the all-zero segment of 64 samples has summed spectral
magnitude `0 < 1e-10` and centroid `0.0`. -/
theorem claim_C10_witness :
    64 ≤ (List.replicate 64 (0 : ℝ)).length ∧
    totalSpec (List.replicate 64 (0 : ℝ)) < 1e-10 ∧
    _spectral_centroid (List.replicate 64 (0 : ℝ)) 16000 = 0 :=
  ⟨by simp, by rw [totalSpec_replicate_zero]; norm_num,
   (claim_C10_centroid_zero (List.replicate 64 (0 : ℝ)) 16000).1 (by simp)
     (by rw [totalSpec_replicate_zero]; norm_num)⟩

end BigPlumpBird.AnalyzeAudio
